import Mathlib

/-!
Verification of the react-alien-signals wrapper (src/src/index.ts) against its
natural-language specification.

The repository under verification is a thin React adapter over the external
`alien-signals` reactive core: `createSignal`, `createComputed`, `createEffect`
and `createSignalScope` re-export the core constructors, and the hooks
(`useSignal`, `useSignalValue`, `useSetSignal`, `useSignalEffect`,
`useSignalScope`, `useComputed`) bridge signals into React's external-store
contract.  The reactive core itself (dependency tracking, lazy memoization,
eager effects, scopes, cycle detection) is not part of this repository's
sources, so those semantics are modelled from the specification (sections
3-5 of spec.md); wrapper-level code (subscribe bodies, setter dispatch,
cleanup management, the export surface) is embedded directly from
src/src/index.ts.
-/

namespace ReactAlienSignals

/-! ## Signal / memoized-computed model

A minimal reactive graph with one writable signal `sval` and one computed
node `c = f(sval)` carrying a memo cache and a dirty flag, plus the lists of
consumer (effect) ids registered as dependents on each node by tracked reads.
-/

/-- Modelled from the spec: state of a two-node graph (one Signal, one
Computed depending on it).  `cache`/`dirty` are the Computed's memo cell and
staleness flag (spec section 3, "Computed ... recomputed lazily"); `ssubs`
and `csubs` are the dependent-edge lists recorded on the Signal and the
Computed for external tracking contexts (effect ids). -/
structure CState where
  sval : Nat
  cache : Nat
  dirty : Bool
  ssubs : List Nat
  csubs : List Nat
deriving DecidableEq, Repr

/-- Modelled from the spec, section 4.1 Write: "stores the new value, bumps
version, and marks every direct dependent Stale".  The single dependent here
is the computed, whose staleness is `dirty`. -/
def signalWrite (v : Nat) (st : CState) : CState :=
  { st with sval := v, dirty := true }

/-- Modelled from the spec, section 4.1 Read: reading a Signal returns the
stored value; if a tracking context `ctx` is active, the reader is added as a
dependent edge on the signal, otherwise nothing is registered. -/
def signalRead (ctx : Option Nat) (st : CState) : Nat × CState :=
  match ctx with
  | some e => (st.sval, { st with ssubs := e :: st.ssubs })
  | none => (st.sval, st)

/-- Modelled from the spec, section 4.1 Read: reading the Computed returns
the cached value when `Clean`; when `Stale` it re-executes `f` on its
dependency, caches the result and clears the dirty flag.  A tracking context
`ctx`, when present, is registered as a dependent edge on the computed. -/
def computedRead (f : Nat → Nat) (ctx : Option Nat) (st : CState) : Nat × CState :=
  let st1 := if st.dirty then { st with cache := f st.sval, dirty := false } else st
  match ctx with
  | some e => (st1.cache, { st1 with csubs := e :: st1.csubs })
  | none => (st1.cache, st1)

/-- Embedded from src/src/index.ts lines 148-149 and 187-188: the host
bridge's `getSnapshot` is `() => signal()`, a direct read of the wrapped
node outside any tracking context. -/
def getSnapshotSignal (st : CState) : Nat × CState :=
  signalRead none st

/-- Embedded from src/src/index.ts lines 187-188: `getSnapshot` for a
wrapped computed node is a direct untracked read of that computed. -/
def getSnapshotComputed (f : Nat → Nat) (st : CState) : Nat × CState :=
  computedRead f none st

/-- C2: for a signal `s` and a computed `c = f(s)`, after writing any value
`v` to `s`, reading `c` returns `f v`: the write marks the computed stale,
and the stale read re-executes `f` on the freshly stored value. -/
theorem computedRead_after_write (f : Nat → Nat) (v : Nat) (ctx : Option Nat) (st : CState) :
    (computedRead f ctx (signalWrite v st)).1 = f v := by
  cases ctx <;> simp [computedRead, signalWrite]

/-- C6: two `getSnapshot` reads of the host bridge with no write in between
return identical values, for both a wrapped signal and a wrapped computed;
moreover the snapshot taken right after a write to the signal already shows
that write (the bridge never exposes a value older than the last completed
write). -/
theorem getSnapshot_tear_free (f : Nat → Nat) (v : Nat) (st : CState) :
    (getSnapshotSignal st).1 = (getSnapshotSignal (getSnapshotSignal st).2).1 ∧
    (getSnapshotComputed f st).1 =
      (getSnapshotComputed f (getSnapshotComputed f st).2).1 ∧
    (getSnapshotSignal (signalWrite v st)).1 = v ∧
    (getSnapshotComputed f (signalWrite v st)).1 = f v := by
  refine ⟨rfl, ?_, rfl, ?_⟩
  · by_cases h : st.dirty <;>
      simp [getSnapshotComputed, computedRead, h]
  · simp [getSnapshotComputed, computedRead, signalWrite]

/-- C7 counterexample: `getSnapshot` on a stale wrapped computed does not
leave the reactive graph unchanged — the read re-executes the computed's
function and updates its memo cache and dirty flag.  Concretely, with
`f = id`, signal value 5, stale cache 0, the state after the snapshot
differs from the state before it. -/
theorem getSnapshot_mutates_stale_computed :
    (getSnapshotComputed (fun n => n) ⟨5, 0, true, [], []⟩).2 ≠
      (⟨5, 0, true, [], []⟩ : CState) := by
  decide

/-- C7 amended: calling the host bridge's `getSnapshot` outside of any
tracking context registers no dependency edge on any node; for a wrapped
signal the graph is left entirely unchanged, and for a wrapped computed the
read may at most refresh that node's own memo cache and dirty flag (a second
immediate snapshot leaves the graph unchanged). -/
theorem getSnapshot_untracked_no_registration (f : Nat → Nat) (st : CState) :
    (getSnapshotSignal st).2 = st ∧
    (getSnapshotComputed f st).2.ssubs = st.ssubs ∧
    (getSnapshotComputed f st).2.csubs = st.csubs ∧
    (getSnapshotComputed f st).2.sval = st.sval ∧
    (getSnapshotComputed f (getSnapshotComputed f st).2).2 =
      (getSnapshotComputed f st).2 := by
  by_cases h : st.dirty <;>
    simp [getSnapshotSignal, getSnapshotComputed, computedRead, signalRead, h]

/-! ## Host-bridge subscribe model

`useSignal` / `useSignalValue` pass React's `useSyncExternalStore` a
subscribe function `(callback) => createEffect(() => { signal(); callback(); })`
(src/src/index.ts lines 143-150 and 182-189).  Per the spec (section 3,
Effect), the effect's function "executes once immediately to establish the
initial dependency set" and re-runs on every write to the tracked signal
until stopped.
-/

/-- State of one bridge subscription: the tracked signal's value, whether
the subscription effect is still active, and how many times the `notify`
callback has been invoked. -/
structure BState where
  sval : Nat
  subActive : Bool
  notifies : Nat
deriving DecidableEq, Repr

/-- Embedded from src/src/index.ts lines 144-147 (effect body:
`signal(); callback();`), with the effect-creation semantics modelled from
the spec: creating the subscription effect runs its body once immediately,
so the signal is read (tracked) and `notify` is invoked once. -/
def subscribe (st : BState) : BState :=
  { st with subActive := true, notifies := st.notifies + 1 }

/-- Modelled from the spec, sections 3 and 4.1: a signal write stores the
new value and eagerly re-runs every active effect tracking the signal; the
subscription effect's body invokes `notify` on each such re-run.  A stopped
effect never re-runs. -/
def bridgeWrite (v : Nat) (st : BState) : BState :=
  { st with sval := v
            notifies := if st.subActive then st.notifies + 1 else st.notifies }

/-- Embedded from src/src/index.ts lines 143-150: the subscribe function
returns the effect's stop handle; invoking it stops the subscription
effect. -/
def unsubscribe (st : BState) : BState :=
  { st with subActive := false }

/-- Events observable by one bridge subscription after it is set up. -/
inductive BridgeOp where
  | write (v : Nat)
  | unsub
deriving DecidableEq, Repr

/-- One step of the bridge model. -/
def bridgeStep (st : BState) : BridgeOp → BState
  | .write v => bridgeWrite v st
  | .unsub => unsubscribe st

/-- Number of writes occurring strictly before the first unsubscribe in an
event list: exactly the re-runs on which `notify` fires. -/
def writesBeforeUnsub : List BridgeOp → Nat
  | [] => 0
  | .write _ :: rest => writesBeforeUnsub rest + 1
  | .unsub :: _ => 0

/-- Once unsubscribed, no event sequence ever invokes `notify` again. -/
theorem bridge_inactive_no_notify (ops : List BridgeOp) (st : BState)
    (h : st.subActive = false) :
    (ops.foldl bridgeStep st).notifies = st.notifies ∧
    (ops.foldl bridgeStep st).subActive = false := by
  induction ops generalizing st with
  | nil => exact ⟨rfl, h⟩
  | cons op rest ih =>
    cases op with
    | write v =>
      simpa [bridgeStep, bridgeWrite, h] using ih _ (by simp [bridgeWrite, h])
    | unsub =>
      simpa [bridgeStep, unsubscribe] using ih _ (by simp [unsubscribe])

/-- C1 counterexample: subscribing invokes `notify` on the effect's first
run — the effect body calls `callback()` unconditionally and the effect
executes once immediately on creation — contradicting the claim that
`notify` is not called on the first run. -/
theorem subscribe_notifies_on_first_run :
    (subscribe ⟨0, false, 0⟩).notifies ≠ 0 := by
  decide

/-- C1 amended: `subscribe(notify)` creates an effect that reads the
wrapped node and calls `notify` on every run of that effect including the
first (which happens at subscription time); each subsequent dependency
write while subscribed produces exactly one `notify`, and the returned
unsubscribe handle stops the effect, after which writes produce no further
notifications.  Formally: after subscribing, the notify count is one (for
the initial run) plus the number of writes that precede the first
unsubscribe. -/
theorem subscribe_notify_count (ops : List BridgeOp) (st0 : BState) :
    (ops.foldl bridgeStep (subscribe st0)).notifies =
      st0.notifies + 1 + writesBeforeUnsub ops := by
  suffices h : ∀ (ops : List BridgeOp) (st : BState), st.subActive = true →
      (ops.foldl bridgeStep st).notifies = st.notifies + writesBeforeUnsub ops by
    simpa [subscribe] using h ops (subscribe st0) (by simp [subscribe])
  intro ops
  induction ops with
  | nil => intro st h; simp [writesBeforeUnsub]
  | cons op rest ih =>
    intro st h
    cases op with
    | write v =>
      have := ih (bridgeWrite v st) (by simp [bridgeWrite, h])
      simp only [List.foldl_cons, bridgeStep] at *
      rw [this]
      simp [bridgeWrite, h, writesBeforeUnsub]
      ring
    | unsub =>
      have := bridge_inactive_no_notify rest (unsubscribe st) (by simp [unsubscribe])
      simp only [List.foldl_cons, bridgeStep]
      rw [this.1]
      simp [unsubscribe, writesBeforeUnsub]

/-! ## Effect-scope model

`createSignalScope(callback)` (src/src/index.ts lines 119-121) forwards to
the core's `effectScope`.  Per the spec (sections 3 and 4.2), the callback
runs immediately with the scope active, every effect created during it is
owned by the scope, and stopping the scope stops all of them.
-/

/-- Modelled from the spec: state of a scope's effect group — the tracked
signal's value and, for each effect created in the scope, its active flag
paired with its run count. -/
structure EffState where
  sval : Nat
  effects : List (Bool × Nat)
deriving DecidableEq, Repr

/-- Modelled from the spec, section 3 Effect: creating an effect inside the
scope callback registers it with the active scope and runs its function
once immediately. -/
def addEffect (st : EffState) : EffState :=
  { st with effects := st.effects ++ [(true, 1)] }

/-- Modelled from the spec, sections 4.1 and 5: a signal write stores the
new value and synchronously re-runs every active effect tracking it;
stopped effects are skipped. -/
def scopeWrite (v : Nat) (st : EffState) : EffState :=
  { sval := v
    effects := st.effects.map fun p => (p.1, if p.1 then p.2 + 1 else p.2) }

/-- Modelled from the spec, section 4.2: `stop()` iterates the scope's
owned effects and stops each one (unsubscribing it from all
dependencies). -/
def stopScope (st : EffState) : EffState :=
  { st with effects := st.effects.map fun p => (false, p.2) }

/-- What the wrapper hands back to the caller of `createSignalScope`:
either the scope's stop handle or (hypothetically) the callback's own
result.  The TypeScript signature `createSignalScope<T>(callback: () => T):
() => void` only ever produces the former. -/
inductive ScopeReturn (α : Type) where
  | stopHandle
  | result (a : α)
deriving DecidableEq, Repr

/-- Embedded from src/src/index.ts lines 119-121:
`createSignalScope(callback)` forwards to the core `effectScope`, which
(spec section 4.2) runs the callback immediately with this scope active and
hands back a stop handle; the callback's own result is discarded. -/
def createSignalScope {α : Type} (cb : EffState → α × EffState) (st : EffState) :
    ScopeReturn α × EffState :=
  (ScopeReturn.stopHandle, (cb st).2)

/-- C4 counterexample: `createSignalScope` with a callback returning `42`
hands the caller the scope's stop handle, not the callback's result — there
is no `run` operation returning the callback's value. -/
theorem createSignalScope_discards_result :
    (createSignalScope (fun st => (42, addEffect st)) ⟨0, []⟩).1 ≠
      ScopeReturn.result 42 := by
  decide

/-- C4 amended: the scope constructor takes the callback directly (there is
no separate `run` operation), executes it immediately with the scope active
for effect registration — an effect created inside the callback has already
run once by the time the constructor returns — and returns a stop handle to
the caller; the callback's own result is discarded. -/
theorem createSignalScope_returns_stop_handle {α : Type}
    (cb : EffState → α × EffState) (st : EffState) (r : α) :
    (createSignalScope cb st).1 = ScopeReturn.stopHandle ∧
    (createSignalScope cb st).2 = (cb st).2 ∧
    (createSignalScope (fun s => (r, addEffect s)) st).2.effects =
      st.effects ++ [(true, 1)] := by
  exact ⟨rfl, rfl, rfl⟩

/-- After `stopScope`, every effect is inactive and a write re-runs
nothing. -/
theorem scopeWrite_stopped_preserves (v : Nat) (st : EffState)
    (h : ∀ p ∈ st.effects, p.1 = false) :
    (scopeWrite v st).effects = st.effects ∧
    ∀ p ∈ (scopeWrite v st).effects, p.1 = false := by
  constructor
  · simp only [scopeWrite]
    calc st.effects.map (fun p => (p.1, if p.1 then p.2 + 1 else p.2))
        = st.effects.map id := by
          apply List.map_congr_left
          intro p hp
          obtain ⟨a, b⟩ := p
          have h1 : a = false := h (a, b) hp
          simp [h1]
    _ = st.effects := List.map_id st.effects
  · intro p hp
    simp only [scopeWrite, List.mem_map] at hp
    obtain ⟨q, hq, rfl⟩ := hp
    exact h q hq

/-- C5: after a scope's `stop()` is invoked, no sequence of subsequent
writes to the effects' dependency ever re-runs any effect of the scope —
every run count stays exactly as it was at the moment of stopping. -/
theorem stopScope_no_further_runs (st : EffState) (writes : List Nat) :
    (writes.foldl (fun s v => scopeWrite v s) (stopScope st)).effects.map Prod.snd =
      st.effects.map Prod.snd := by
  suffices h : ∀ (ws : List Nat) (s : EffState), (∀ p ∈ s.effects, p.1 = false) →
      (ws.foldl (fun s v => scopeWrite v s) s).effects = s.effects by
    rw [h writes (stopScope st) (by simp [stopScope])]
    simp [stopScope]
  intro ws
  induction ws with
  | nil => intro s _; rfl
  | cons w rest ih =>
    intro s hs
    have hw := scopeWrite_stopped_preserves w s hs
    simp only [List.foldl_cons]
    rw [ih (scopeWrite w s) hw.2, hw.1]

/-! ## Public export surface

src/src/index.ts is the package's sole module; its `export` declarations
are the complete public API.
-/

/-- Embedded from src/src/index.ts: the names exported by the module, in
source order (the type alias `WritableSignal` plus ten functions). -/
def moduleExports : List String :=
  ["WritableSignal", "createSignal", "createComputed", "createEffect",
   "createSignalScope", "useSignal", "useSignalValue", "useSetSignal",
   "useSignalEffect", "useSignalScope", "useComputed"]

/-- C3 counterexample: the module exports none of `createAsyncComputed`,
`createAsyncEffect`, `createComputedArray`, `createComputedSet`,
`createEqualityComputed` — the async, collection and equality-gated
constructors claimed for the public API surface are absent. -/
theorem async_constructors_not_exported :
    "createAsyncComputed" ∉ moduleExports ∧
    "createAsyncEffect" ∉ moduleExports ∧
    "createComputedArray" ∉ moduleExports ∧
    "createComputedSet" ∉ moduleExports ∧
    "createEqualityComputed" ∉ moduleExports := by
  decide

/-- C3 amended: the library's public construction API surface provides the
signal/computed/effect/scope constructors and the React hooks — exactly
`createSignal`, `createComputed`, `createEffect`, `createSignalScope`,
`useSignal`, `useSignalValue`, `useSetSignal`, `useSignalEffect`,
`useSignalScope`, `useComputed` (plus the `WritableSignal` type) — and does
not provide `createAsyncComputed`, `createAsyncEffect`,
`createComputedArray`, `createComputedSet`, or `createEqualityComputed`. -/
theorem moduleExports_exact :
    "createSignal" ∈ moduleExports ∧
    "createComputed" ∈ moduleExports ∧
    "createEffect" ∈ moduleExports ∧
    "createSignalScope" ∈ moduleExports ∧
    "useSignal" ∈ moduleExports ∧
    "useSignalValue" ∈ moduleExports ∧
    "useSetSignal" ∈ moduleExports ∧
    "useSignalEffect" ∈ moduleExports ∧
    "useSignalScope" ∈ moduleExports ∧
    "useComputed" ∈ moduleExports ∧
    "createAsyncComputed" ∉ moduleExports ∧
    "createAsyncEffect" ∉ moduleExports ∧
    "createComputedArray" ∉ moduleExports ∧
    "createComputedSet" ∉ moduleExports ∧
    "createEqualityComputed" ∉ moduleExports := by
  decide

/-! ## Setter dispatch model

`useSignal`'s `setValue` and `useSetSignal`'s returned setter
(src/src/index.ts lines 152-158 and 212-218) dispatch on the runtime type
of the argument: `if (typeof val === "function") signal(val(signal()));
else signal(val);`.  To capture the runtime `typeof` test we model the
value domain as JavaScript-style values that are either numbers or
(defunctionalized) functions.
-/

mutual

/-- A JavaScript-style runtime value: a number or a function. -/
inductive JSVal where
  | num (n : Int)
  | fnV (c : FnCode)

/-- Defunctionalized function bodies for `JSVal` functions: the
increment-by-one updater, and the constant function returning a fixed
value. -/
inductive FnCode where
  | inc
  | retConst (v : JSVal)

end

/-- Applying a `JSVal` function to an argument (`inc` on a non-number
yields NaN, modelled as 0). -/
def applyFn : FnCode → JSVal → JSVal
  | .inc, .num n => .num (n + 1)
  | .inc, .fnV _ => .num 0
  | .retConst v, _ => v

/-- Whether a runtime value is a function (`typeof val === "function"`). -/
def JSVal.isFn : JSVal → Bool
  | .num _ => false
  | .fnV _ => true

/-- Embedded from src/src/index.ts lines 152-158 (and identically lines
212-218): the value the setter stores into the signal — a function
argument is applied to the signal's current value and the result stored, a
non-function argument is stored as-is. -/
def setSignal (val cur : JSVal) : JSVal :=
  match val with
  | .fnV c => applyFn c cur
  | .num n => .num n

/-- C9 counterexample: a function value can be stored in the signal through
the setter — an updater whose result is itself a function stores that
function.  Concretely, `setter(prev => (x => x + 1))` on current value `0`
leaves a function stored in the signal. -/
theorem setter_can_store_function :
    (setSignal (JSVal.fnV (FnCode.retConst (JSVal.fnV FnCode.inc)))
      (JSVal.num 0)).isFn = true := by
  rfl

/-- C9 amended: the setter writes its argument `v` to the signal when `v`
is not a function, and writes `f(current)` when given a function `f` (hence
two successive `prev => prev + 1` calls increase the stored value by
exactly 2, and a function passed directly as the value argument is never
itself stored — what is stored is its application to the current value);
however an updater's result is stored unchecked, so an updater returning a
function does store a function. -/
theorem setter_dispatch (n : Int) (c : FnCode) (cur : JSVal) (m : Int) :
    setSignal (JSVal.num n) cur = JSVal.num n ∧
    setSignal (JSVal.fnV c) cur = applyFn c cur ∧
    setSignal (JSVal.fnV FnCode.inc)
        (setSignal (JSVal.fnV FnCode.inc) (JSVal.num m)) = JSVal.num (m + 2) := by
  refine ⟨rfl, rfl, ?_⟩
  show JSVal.num (m + 1 + 1) = JSVal.num (m + 2)
  exact congrArg JSVal.num (by ring)

/-! ## useSignalEffect cleanup model

src/src/index.ts lines 224-237: on mount a core effect is created whose
body is `if (cleanup) cleanup(); cleanup = fn();`; the unmount handler is
`() => { if (cleanup) cleanup(); stop(); }`.  We tag the cleanup returned
by the i-th execution of `fn` with the execution index `i`; the argument
`ret : Nat → Bool` says whether the i-th execution returned a cleanup
function at all (`fn` may return nothing).
-/

/-- State of one `useSignalEffect` lifecycle: how many times `fn` has
executed, which execution's cleanup currently sits in the `cleanup` slot
(if any), and the execution indices whose cleanups have been invoked, in
invocation order. -/
structure CleanupState where
  execCount : Nat
  slot : Option Nat
  invoked : List Nat
deriving DecidableEq, Repr

/-- Embedded from src/src/index.ts lines 227-230, the effect body: invoke
the pending cleanup if one is stored, then execute `fn` (the
`execCount`-th execution), storing the cleanup it returns (if any). -/
def effectBody (ret : Nat → Bool) (st : CleanupState) : CleanupState :=
  { execCount := st.execCount + 1
    slot := if ret st.execCount then some st.execCount else none
    invoked := st.invoked ++ st.slot.toList }

/-- Embedded from src/src/index.ts lines 232-235, the unmount handler:
invoke the pending cleanup if one is stored, then stop the effect (the
model ends here: a stopped effect never re-runs). -/
def unmountCleanup (st : CleanupState) : CleanupState :=
  { st with slot := none, invoked := st.invoked ++ st.slot.toList }

/-- State after the mount run of `fn` followed by `j` re-runs: `effectBody`
applied `j + 1` times to the fresh state (empty cleanup slot, per the
`let cleanup: void | (() => void)` declaration on line 226). -/
def runsState (ret : Nat → Bool) : Nat → CleanupState
  | 0 => ⟨0, none, []⟩
  | j + 1 => effectBody ret (runsState ret j)

/-- Cleanup invocations over a whole lifecycle: mount, `k` re-runs, then
unmount. -/
def runTrace (ret : Nat → Bool) (k : Nat) : List Nat :=
  (unmountCleanup (runsState ret (k + 1))).invoked

/-- Shape of the state after the mount run and `j` re-runs: `fn` has
executed `j + 1` times, the slot holds run `j`'s cleanup exactly when run
`j` returned one, and the invoked cleanups are those of runs `0..j-1` that
returned one, in order. -/
theorem runsState_closed_form (ret : Nat → Bool) (j : Nat) :
    runsState ret (j + 1) =
      ⟨j + 1, if ret j then some j else none, (List.range j).filter ret⟩ := by
  induction j with
  | zero => simp [runsState, effectBody]
  | succ i ih =>
    show effectBody ret (runsState ret (i + 1)) = _
    rw [ih]
    simp only [effectBody, List.range_succ, List.filter_append]
    by_cases h : ret (i + 1) <;> by_cases h2 : ret i <;>
      simp [h, h2, Option.toList]

/-- C10: over a `useSignalEffect` lifecycle consisting of the mount
execution of `fn`, `k` re-executions and an unmount, every cleanup returned
by an execution of `fn` is invoked exactly once (and executions returning
no cleanup contribute nothing); cleanup `i` is already invoked after re-run
`j` exactly when a later execution exists (`i < j`), i.e. it is invoked
immediately before the next re-execution, and the last pending cleanup is
invoked at unmount. -/
theorem useSignalEffect_cleanup_once (ret : Nat → Bool) (k : Nat) :
    runTrace ret k = (List.range (k + 1)).filter ret ∧
    (runTrace ret k).Nodup ∧
    (∀ i, (runTrace ret k).count i =
      if ret i = true ∧ i < k + 1 then 1 else 0) ∧
    (∀ i j, i ∈ (runsState ret (j + 1)).invoked ↔ (ret i = true ∧ i < j)) := by
  have htrace : runTrace ret k = (List.range (k + 1)).filter ret := by
    rw [runTrace, runsState_closed_form]
    simp only [unmountCleanup, List.range_succ, List.filter_append]
    by_cases h : ret k <;> simp [h, Option.toList]
  have hnodup : (runTrace ret k).Nodup := by
    rw [htrace]; exact (List.nodup_range (k + 1)).filter ret
  refine ⟨htrace, hnodup, ?_, ?_⟩
  · intro i
    by_cases hm : i ∈ runTrace ret k
    · have hif : ret i = true ∧ i < k + 1 := by
        rw [htrace] at hm
        have := (List.mem_filter.mp hm)
        exact ⟨this.2, List.mem_range.mp this.1⟩
      rw [if_pos hif]
      exact List.count_eq_one_of_mem hnodup hm
    · have hif : ¬ (ret i = true ∧ i < k + 1) := by
        intro hcon
        exact hm (by
          rw [htrace]
          exact List.mem_filter.mpr ⟨List.mem_range.mpr hcon.2, hcon.1⟩)
      rw [if_neg hif]
      exact List.count_eq_zero_of_not_mem hm
  · intro i j
    rw [runsState_closed_form]
    constructor
    · intro hmem
      have := List.mem_filter.mp hmem
      exact ⟨this.2, List.mem_range.mp this.1⟩
    · intro hcon
      exact List.mem_filter.mpr ⟨List.mem_range.mpr hcon.2, hcon.1⟩

/-! ## Cycle detection model

`createComputed` (src/src/index.ts lines 74-76) wraps the core's lazy
computed nodes.  Per the spec (section 4.1), a read of a node already in
the `Computing` state raises a `CyclicDependencyError`, fatal and not
retried.  Computed bodies are represented syntactically so that
self-reference is expressible; the read routine carries the stack of nodes
currently `Computing` and a fuel bound for the recursion depth.
-/

/-- Modelled from the spec: the body of a computed node — a constant (a
plain signal value), a read of another node by id, or an addition of two
sub-computations. -/
inductive CExpr where
  | const (n : Nat)
  | readNode (i : Nat)
  | add (a b : CExpr)
deriving DecidableEq, Repr

/-- Modelled from the spec, sections 4.1 and 7: a read either raises the
fatal `CyclicDependencyError` (a node already `Computing` was re-entered)
or exhausts the model's recursion fuel. -/
inductive ReadErr where
  | cyclic
  | outOfFuel
deriving DecidableEq, Repr

/-- Evaluates a computed body, delegating node reads to `readFn`; the first
error encountered aborts the computation (fatal, not retried). -/
def evalExprWith (readFn : Nat → Except ReadErr Nat) : CExpr → Except ReadErr Nat
  | .const n => .ok n
  | .readNode i => readFn i
  | .add a b => do
      let x ← evalExprWith readFn a
      let y ← evalExprWith readFn b
      pure (x + y)

/-- Modelled from the spec, section 4.1 Read: reading node `i` of graph `g`
while the nodes in `stk` are `Computing` first checks the cycle guard —
entering a node already `Computing` raises `CyclicDependencyError` — then
executes the node's body with `i` pushed onto the `Computing` stack. -/
def readNodeF (g : Nat → CExpr) : Nat → List Nat → Nat → Except ReadErr Nat
  | 0, stk, i => if i ∈ stk then .error .cyclic else .error .outOfFuel
  | fuel + 1, stk, i =>
      if i ∈ stk then .error .cyclic
      else evalExprWith (readNodeF g fuel (i :: stk)) (g i)

/-- A concrete graph: node 0 reads itself directly (`node0 = node0 + 1`),
node 1 is an unrelated plain value `7`, and nodes 2 and 3 read each other
(a transitive cycle). -/
def cycleG : Nat → CExpr := fun i =>
  match i with
  | 0 => .add (.readNode 0) (.const 1)
  | 1 => .const 7
  | 2 => .readNode 3
  | 3 => .readNode 2
  | _ => .const 0

/-- C8: re-entering any node that is already `Computing` raises
`CyclicDependencyError` (for every graph, fuel, stack and node on the
stack); in the concrete graph `cycleG`, reading the directly
self-referential node 0 and the transitively self-referential node 2 both
raise `CyclicDependencyError`, while the unrelated node 1 still reads
successfully afterwards — the graph remains usable. -/
theorem cyclic_read_raises (g : Nat → CExpr) (fuel : Nat) (stk : List Nat)
    (i : Nat) (h : i ∈ stk) :
    readNodeF g fuel stk i = Except.error ReadErr.cyclic ∧
    readNodeF cycleG 10 [] 0 = Except.error ReadErr.cyclic ∧
    readNodeF cycleG 10 [] 2 = Except.error ReadErr.cyclic ∧
    readNodeF cycleG 10 [] 1 = Except.ok 7 := by
  refine ⟨?_, rfl, rfl, rfl⟩
  cases fuel <;> simp [readNodeF, h]

/-- C8 witness: the cycle guard fires at the concrete instance of graph
`cycleG` with node 0 already on the `Computing` stack. -/
theorem cyclic_read_raises_witness :
    readNodeF cycleG 1 [0] 0 = Except.error ReadErr.cyclic :=
  (cyclic_read_raises cycleG 1 [0] 0 (by decide)).1

end ReactAlienSignals
